import Mathlib

/-!
Shallow embedding of the SPF/DKIM subsystem of kumomta:
* `crates/message/src/dkim.rs` — DKIM signer configuration, signer cache,
  and the `rsa_sha256_signer` / `ed25519_signer` acquisition entry points;
* `crates/kumo-spf/src/dns.rs` — the DNS resolution capability and its
  two-kind error taxonomy;
* the SPF evaluator (not present under the sources at hand; modelled from
  the specification, see the `Spf` namespace).

Machine integers of the source are modelled as `Nat` (no arithmetic in the
embedded code can overflow the source's 64-bit quantities in any scenario we
evaluate); `Instant`/`Duration` pairs are modelled as `Nat` seconds; fallible
Rust code returns `Except String _` or is driven by `Option`.
-/

namespace Dkim

/-- `Canon` from dkim.rs: header/body canonicalization modes. -/
inductive Canon where
  | Relaxed
  | Simple
deriving DecidableEq, Repr

/-- `impl Default for Canon` in dkim.rs selects `Relaxed`. -/
def Canon.default : Canon := .Relaxed

/-- `HashAlgo` from dkim.rs. -/
inductive HashAlgo where
  | Sha1
  | Sha256
deriving DecidableEq, Repr

/-- `data_loader::KeySource` is external to the embedded sources; for the
signer cache it only matters as a hashable descriptor identity, so it is
modelled as a string descriptor. -/
abbrev KeySource := String

/-- `cfdkim::DkimPrivateKey` is external; the embedded code only threads it
through, so we model it as tagged raw key bytes. -/
inductive DkimPrivateKey where
  | rsa (bytes : List Nat)
  | ed25519 (bytes : List Nat)
deriving DecidableEq, Repr

/-- `SignerConfig` from dkim.rs, field for field.  `expiration` and `ttl` are
`u64` seconds modelled as `Nat`. -/
structure SignerConfig where
  domain : String
  selector : String
  headers : List String
  atps : Option String
  atpsh : Option HashAlgo
  agent_user_identifier : Option String
  expiration : Option Nat
  body_length : Bool
  reporting : Bool
  header_canonicalization : Canon
  body_canonicalization : Canon
  key : KeySource
  ttl : Nat
deriving DecidableEq, Repr

/-- `SignerConfig::default_ttl` from dkim.rs. -/
def SignerConfig.default_ttl : Nat := 300

/-- Deserialization of a `SignerConfig` with every `#[serde(default)]` field
absent: the serde defaults of dkim.rs applied to the three required fields
plus the key source. -/
def SignerConfig.withDefaults (domain selector : String) (headers : List String)
    (key : KeySource) : SignerConfig where
  domain := domain
  selector := selector
  headers := headers
  atps := none
  atpsh := none
  agent_user_identifier := none
  expiration := none
  body_length := false
  reporting := false
  header_canonicalization := Canon.default
  body_canonicalization := Canon.default
  key := key
  ttl := SignerConfig.default_ttl

/-- The configured `cfdkim::Signer` value produced by the builder chain in
`SignerConfig::configure_cfdkim`.  The builder of the external cfdkim crate
is modelled as a record of exactly the settings the embedded code passes to
it; its internal validation is outside the embedded sources. -/
structure CfdkimSigner where
  signed_headers : List String
  private_key : DkimPrivateKey
  selector : String
  signing_domain : String
  header_canonicalization : Canon
  body_canonicalization : Canon
  expiry : Option Nat
deriving DecidableEq, Repr

/-- `SignerConfig::configure_cfdkim` from dkim.rs: the eager unsupported-option
checks followed by the builder chain. -/
def SignerConfig.configure_cfdkim (self : SignerConfig) (key : DkimPrivateKey) :
    Except String CfdkimSigner :=
  if self.atps.isSome then
    .error "atps is not currently supported for RSA keys"
  else if self.atpsh.isSome then
    .error "atpsh is not currently supported for RSA keys"
  else if self.agent_user_identifier.isSome then
    .error "agent_user_identifier is not currently supported for RSA keys"
  else if self.body_length then
    .error "body_length is not currently supported for RSA keys"
  else if self.reporting then
    .error "reporting is not currently supported for RSA keys"
  else
    .ok
      { signed_headers := self.headers
        private_key := key
        selector := self.selector
        signing_domain := self.domain
        header_canonicalization := self.header_canonicalization
        body_canonicalization := self.body_canonicalization
        expiry := self.expiration }

/-- `CFSigner` from dkim.rs wraps the configured cfdkim signer. -/
structure CFSigner where
  signer : CfdkimSigner
deriving DecidableEq, Repr

/-- A parsed email: `cfdkim::ParsedEmail` splits raw bytes into a header
block and a body.  The parse itself lives in the external cfdkim crate, so
`CFSigner.sign` below takes the parse function as a parameter. -/
structure Mail where
  headerBlock : List Nat
  body : List Nat
deriving DecidableEq, Repr

/-- `CFSigner::sign` from dkim.rs: parse the raw bytes (`parseBytes`
standing for `cfdkim::ParsedEmail::parse_bytes`), fail with the parse error
if the split is impossible, otherwise delegate to the configured signer
(`signMail` standing for `cfdkim::Signer::sign`). -/
def CFSigner.sign (parseBytes : List Nat → Option Mail)
    (signMail : CfdkimSigner → Mail → Except String String)
    (self : CFSigner) (message : List Nat) : Except String String :=
  match parseBytes message with
  | none => .error "failed to parse message to pass to dkim signer"
  | some mail => signMail self.signer mail

/-- `Signer` from dkim.rs is a shared handle on a `CFSigner`
(`Arc<CFSigner>`); sharing is modelled by value equality of the wrapped
signer. -/
structure Signer where
  inner : CFSigner
deriving DecidableEq, Repr

/-- `Signer::sign` from dkim.rs delegates to the wrapped `CFSigner`. -/
def Signer.sign (parseBytes : List Nat → Option Mail)
    (signMail : CfdkimSigner → Mail → Except String String)
    (self : Signer) (message : List Nat) : Except String String :=
  self.inner.sign parseBytes signMail message

/-- One entry of the signer cache: configuration identity, cached signer,
and absolute expiration instant. -/
structure CacheEntry where
  cfg : SignerConfig
  value : CFSigner
  expires : Nat
deriving DecidableEq, Repr

/-- Modelled from the spec: `lruttl::LruCacheWithTtl` (the `SIGNER_CACHE` of
dkim.rs; the lruttl crate is not among the embedded sources).  The spec:
the cache maps `SignerConfig → (Signer, expiration instant)`, is
capacity-bounded with least-recently-used eviction among non-expired
entries, and removes expired entries lazily on lookup.  The list is kept in
most-recently-used-first order. -/
abbrev SignerCache := List CacheEntry

/-- Capacity of `SIGNER_CACHE` in dkim.rs: `LruCacheWithTtl::new(1024)`. -/
def signerCacheCapacity : Nat := 1024

/-- Modelled from the spec: cache lookup.  Expired entries are removed
lazily; a non-expired hit is moved to the most-recently-used position and
its value returned. -/
def cacheGet (now : Nat) (cache : SignerCache) (cfg : SignerConfig) :
    Option CFSigner × SignerCache :=
  let live := cache.filter (fun e => decide (now < e.expires))
  match live.find? (fun e => decide (e.cfg = cfg)) with
  | some e => (some e.value, e :: live.filter (fun x => decide (x.cfg ≠ cfg)))
  | none => (none, live)

/-- Modelled from the spec: cache insertion with an absolute expiration
instant.  The new entry becomes most recently used; if the capacity is
exceeded the least-recently-used entries fall off the end. -/
def cacheInsert (cache : SignerCache) (cfg : SignerConfig) (v : CFSigner)
    (expires : Nat) : SignerCache :=
  (⟨cfg, v, expires⟩ :: cache.filter (fun e => decide (e.cfg ≠ cfg))).take
    signerCacheCapacity

/-- Outcome of one signer-acquisition call: the returned value or error, the
cache state after the call, and how many times the key source's `get()` was
invoked during the call. -/
structure AcquireOutcome where
  result : Except String Signer
  cache : SignerCache
  fetches : Nat
deriving Repr

/-- The `rsa_sha256_signer` async entry point of dkim.rs, with ambient state
made explicit: `get` is the key source capability (`KeySource::get`),
`rsaParse` is `cfdkim::DkimPrivateKey::rsa_key`, `now` the current instant
in seconds, `cache` the signer cache.  On a cache hit the cached signer is
returned; on a miss the key is fetched and parsed, the configuration is
validated and the new signer is inserted with expiration `now + ttl`. -/
def rsa_sha256_signer (get : KeySource → Except String (List Nat))
    (rsaParse : List Nat → Except String DkimPrivateKey)
    (now : Nat) (cache : SignerCache) (params : SignerConfig) : AcquireOutcome :=
  match cacheGet now cache params with
  | (some inner, cache') => ⟨.ok ⟨inner⟩, cache', 0⟩
  | (none, cache') =>
    match get params.key with
    | .error err => ⟨.error (params.key ++ ": " ++ err), cache', 1⟩
    | .ok data =>
      match rsaParse data with
      | .error err => ⟨.error (params.key ++ ": " ++ err), cache', 1⟩
      | .ok key =>
        match params.configure_cfdkim key with
        | .error err => ⟨.error err, cache', 1⟩
        | .ok signer =>
          let inner : CFSigner := ⟨signer⟩
          ⟨.ok ⟨inner⟩, cacheInsert cache' params inner (now + params.ttl), 1⟩

/-- The `ed25519_signer` async entry point of dkim.rs; identical to the RSA
entry point except that the key bytes are parsed by
`cfdkim::DkimPrivateKey::ed25519_key` (`edParse`). -/
def ed25519_signer (get : KeySource → Except String (List Nat))
    (edParse : List Nat → Except String DkimPrivateKey)
    (now : Nat) (cache : SignerCache) (params : SignerConfig) : AcquireOutcome :=
  match cacheGet now cache params with
  | (some inner, cache') => ⟨.ok ⟨inner⟩, cache', 0⟩
  | (none, cache') =>
    match get params.key with
    | .error err => ⟨.error (params.key ++ ": " ++ err), cache', 1⟩
    | .ok data =>
      match edParse data with
      | .error err => ⟨.error (params.key ++ ": " ++ err), cache', 1⟩
      | .ok key =>
        match params.configure_cfdkim key with
        | .error err => ⟨.error err, cache', 1⟩
        | .ok signer =>
          let inner : CFSigner := ⟨signer⟩
          ⟨.ok ⟨inner⟩, cacheInsert cache' params inner (now + params.ttl), 1⟩

end Dkim

namespace SpfDns

/-- `DnsError` from dns.rs: the two-kind error taxonomy of the DNS
capability. -/
inductive DnsError where
  | NotFound (name : String)
  | LookupFailed (detail : String)
deriving DecidableEq, Repr

/-- The kind of a `hickory_resolver::error::ResolveError`.  Only
`NoRecordsFound` is inspected by the embedded code; the remaining kinds of
the resolver library are represented by their carried message. -/
inductive ResolveErrorKind where
  | NoRecordsFound (query : String)
  | Message (msg : String)
  | Io (msg : String)
  | Proto (msg : String)
  | Timeout
deriving DecidableEq, Repr

/-- Display of a resolver error, standing for hickory's `Display` impl used
by the `{err}` interpolation in dns.rs. -/
def ResolveErrorKind.display : ResolveErrorKind → String
  | .NoRecordsFound q => "no records found for " ++ q
  | .Message m => m
  | .Io m => m
  | .Proto m => m
  | .Timeout => "request timed out"

/-- `DnsError::from_resolve` from dns.rs: `NoRecordsFound` becomes
`NotFound(name)`, every other resolver error kind becomes
`LookupFailed("failed to query DNS for {name}: {err}")`. -/
def DnsError.from_resolve (name : String) (err : ResolveErrorKind) : DnsError :=
  match err with
  | .NoRecordsFound _ => DnsError.NotFound name
  | _ =>
    DnsError.LookupFailed ("failed to query DNS for " ++ name ++ ": " ++ err.display)

/-- One MX record as the resolver returns it:
`hickory_resolver::proto::rr::rdata::MX` carries a preference (priority)
and an exchange name. -/
structure MxRecord where
  preference : Nat
  exchange : String
deriving DecidableEq, Repr

/-- One TXT record as the resolver returns it: an ordered list of byte
segments (character-strings). -/
abbrev TxtRecord := List (List Nat)

/-- `impl Lookup for TokioAsyncResolver`, `lookup_ip`: the resolver's
answer (`resolver`, standing for `TokioAsyncResolver::lookup_ip`) is passed
through unchanged on success; a resolver error is translated by
`DnsError::from_resolve`. -/
def lookup_ip (resolver : String → Except ResolveErrorKind (List Nat))
    (name : String) : Except DnsError (List Nat) :=
  match resolver name with
  | .error err => .error (DnsError.from_resolve name err)
  | .ok ips => .ok ips

/-- `impl Lookup for TokioAsyncResolver`, `lookup_mx`: each record of the
resolver's answer is mapped to its exchange name, in the order the resolver
returned the records; a resolver error is translated by
`DnsError::from_resolve`. -/
def lookup_mx (resolver : String → Except ResolveErrorKind (List MxRecord))
    (name : String) : Except DnsError (List String) :=
  match resolver name with
  | .error err => .error (DnsError.from_resolve name err)
  | .ok records => .ok (records.map (·.exchange))

/-- `impl Lookup for TokioAsyncResolver`, `lookup_txt`: each TXT record of
the resolver's answer becomes one string, the concatenation of the decodings
of that record's segments (`decode` standing for
`String::from_utf8_lossy`); a resolver error is translated by
`DnsError::from_resolve`. -/
def lookup_txt (decode : List Nat → String)
    (resolver : String → Except ResolveErrorKind (List TxtRecord))
    (name : String) : Except DnsError (List String) :=
  match resolver name with
  | .error err => .error (DnsError.from_resolve name err)
  | .ok records =>
    .ok (records.map (fun (txt : TxtRecord) => String.join (txt.map decode)))

end SpfDns

namespace Spf

/-!
The SPF evaluator of the repository is not among the embedded sources (only
its DNS capability, dns.rs, is), so the definitions of this namespace are
modelled from the specification, §3 and §4.2.  Where the specification is
silent on a detail (exact textual formats, `ptr` validation, unknown
modifiers), the model follows RFC 7208 and says so in a doc comment.
-/

open SpfDns (DnsError)

/-- An IP address: a 32-bit or 128-bit value modelled as a `Nat` below the
respective bound. -/
inductive IpAddr where
  | v4 (value : Nat)
  | v6 (value : Nat)
deriving DecidableEq, Repr

/-- A CIDR block: a base address together with a prefix length. -/
structure Cidr where
  addr : IpAddr
  len : Nat
deriving DecidableEq, Repr

/-- Modelled from the spec: "match if client address is inside the literal
CIDR" — prefix equality of the high `len` bits, for addresses of the same
family. -/
def cidrContains (c : Cidr) (ip : IpAddr) : Bool :=
  match c.addr, ip with
  | .v4 base, .v4 x => base / 2 ^ (32 - c.len) = x / 2 ^ (32 - c.len)
  | .v6 base, .v6 x => base / 2 ^ (128 - c.len) = x / 2 ^ (128 - c.len)
  | _, _ => false

/-- Modelled from the spec: the qualifier carried by each mechanism. -/
inductive Qualifier where
  | pass
  | fail
  | softfail
  | neutral
deriving DecidableEq, Repr

/-- Modelled from the spec: `SpfMechanism`, a tagged variant over
`{ip4, ip6, a, mx, ptr, include, exists, all}`, each carrying a qualifier
and an optional domain/CIDR argument. -/
inductive Mechanism where
  | ip4 (q : Qualifier) (cidr : Cidr)
  | ip6 (q : Qualifier) (cidr : Cidr)
  | a (q : Qualifier) (domainArg : Option String) (cidrLen : Option Nat)
  | mx (q : Qualifier) (domainArg : Option String) (cidrLen : Option Nat)
  | ptr (q : Qualifier) (domainArg : Option String)
  | includeMech (q : Qualifier) (domainArg : String)
  | existsMech (q : Qualifier) (domainArg : String)
  | all (q : Qualifier)
deriving DecidableEq, Repr

/-- Modelled from the spec: `SpfRecord`, an ordered sequence of mechanisms
plus an optional redirect modifier. -/
structure SpfRecord where
  mechanisms : List Mechanism
  redirect : Option String
deriving DecidableEq, Repr

/-- Modelled from the spec: `SpfResult`, one of the seven classified
verdicts. -/
inductive SpfResult where
  | pass
  | fail
  | softfail
  | neutral
  | none
  | tempError
  | permError
deriving DecidableEq, Repr

/-- The qualifier of a matched mechanism, as the evaluation result. -/
def Qualifier.toResult : Qualifier → SpfResult
  | .pass => .pass
  | .fail => .fail
  | .softfail => .softfail
  | .neutral => .neutral

/-- Decode one decimal string into a `Nat`, rejecting empty or non-digit
input (`String.toNat?`). -/
def decNat? (s : String) : Option Nat := s.toNat?

/-- Decode one hexadecimal digit. -/
def hexDigit? (c : Char) : Option Nat :=
  if c.isDigit then some (c.toNat - 48)
  else if 97 ≤ c.toNat ∧ c.toNat ≤ 102 then some (c.toNat - 87)
  else if 65 ≤ c.toNat ∧ c.toNat ≤ 70 then some (c.toNat - 55)
  else none

/-- Decode a non-empty hexadecimal string. -/
def hexNat? (s : String) : Option Nat :=
  if s.isEmpty then none
  else
    s.toList.foldl
      (fun acc c =>
        match acc, hexDigit? c with
        | some n, some d => some (n * 16 + d)
        | _, _ => none)
      (some 0)

/-- Parse a dotted-quad IPv4 address into its 32-bit value. -/
def parseIp4? (s : String) : Option Nat :=
  match s.splitOn "." with
  | [a, b, c, d] =>
    match decNat? a, decNat? b, decNat? c, decNat? d with
    | some a, some b, some c, some d =>
      if a ≤ 255 ∧ b ≤ 255 ∧ c ≤ 255 ∧ d ≤ 255 then
        some (((a * 256 + b) * 256 + c) * 256 + d)
      else Option.none
    | _, _, _, _ => Option.none
  | _ => Option.none

/-- Parse an IPv6 address of eight colon-separated hexadecimal groups into
its 128-bit value.  The spec gives no textual format, so the model accepts
the full uncompressed form only (no `::` zero-compression). -/
def parseIp6? (s : String) : Option Nat :=
  let groups := s.splitOn ":"
  if groups.length = 8 then
    groups.foldl
      (fun acc g =>
        match acc, hexNat? g with
        | some n, some h => if h ≤ 65535 then some (n * 65536 + h) else Option.none
        | _, _ => Option.none)
      (some 0)
  else Option.none

/-- Parse a `addr[/len]` IPv4 CIDR argument; a missing length means a full
32-bit match. -/
def parseCidr4? (s : String) : Option Cidr :=
  match s.splitOn "/" with
  | [a] => (parseIp4? a).map (fun v => ⟨.v4 v, 32⟩)
  | [a, l] =>
    match parseIp4? a, decNat? l with
    | some v, some n => if n ≤ 32 then some ⟨.v4 v, n⟩ else Option.none
    | _, _ => Option.none
  | _ => Option.none

/-- Parse a `addr[/len]` IPv6 CIDR argument; a missing length means a full
128-bit match. -/
def parseCidr6? (s : String) : Option Cidr :=
  match s.splitOn "/" with
  | [a] => (parseIp6? a).map (fun v => ⟨.v6 v, 128⟩)
  | [a, l] =>
    match parseIp6? a, decNat? l with
    | some v, some n => if n ≤ 128 then some ⟨.v6 v, n⟩ else Option.none
    | _, _ => Option.none
  | _ => Option.none

/-- Strip a leading qualifier character; a term without one defaults to
`pass`. -/
def parseQualifier (t : String) : Qualifier × String :=
  if t.startsWith "+" then (.pass, t.drop 1)
  else if t.startsWith "-" then (.fail, t.drop 1)
  else if t.startsWith "~" then (.softfail, t.drop 1)
  else if t.startsWith "?" then (.neutral, t.drop 1)
  else (.pass, t)

/-- Split a term at its first `:` into mechanism head and argument. -/
def splitColon (t : String) : String × Option String :=
  match t.splitOn ":" with
  | [] => ("", Option.none)
  | [x] => (x, Option.none)
  | x :: rest => (x, some (String.intercalate ":" rest))

/-- Split a string at its first `/` into a pre-slash part and an optional
tail. -/
def splitSlash (t : String) : String × Option String :=
  match t.splitOn "/" with
  | [] => ("", Option.none)
  | [x] => (x, Option.none)
  | x :: rest => (x, some (String.intercalate "/" rest))

/-- Parse the `[domain][/len]` argument shape shared by the `a` and `mx`
mechanisms. -/
def parseDualArg (q : Qualifier) (colonArg : Option String)
    (slashTail : Option String)
    (mk : Qualifier → Option String → Option Nat → Mechanism) :
    Option Mechanism :=
  match colonArg with
  | Option.none =>
    match slashTail with
    | Option.none => some (mk q Option.none Option.none)
    | some l => (decNat? l).map (fun n => mk q Option.none (some n))
  | some arg =>
    match splitSlash arg with
    | (d, Option.none) =>
      if d.isEmpty then Option.none else some (mk q (some d) Option.none)
    | (d, some l) =>
      if d.isEmpty then Option.none
      else (decNat? l).map (fun n => mk q (some d) (some n))

/-- Parse one SPF term: either a mechanism (with optional qualifier prefix)
or a modifier of the form `name=value`.  `redirect=` is recognised; other
modifiers are ignored per RFC 7208 (the spec names only the redirect
modifier); anything else is a syntax error. -/
def parseTerm (t : String) : Option (Mechanism ⊕ Option String) :=
  if t.toLower.startsWith "redirect=" then
    some (Sum.inr (some (t.drop 9)))
  else if (t.splitOn "=").length ≥ 2 then
    -- an unknown modifier: valid syntax, no effect
    some (Sum.inr Option.none)
  else
    let (q, body) := parseQualifier t
    let (head, colonArg) := splitColon body
    let (nameRaw, slashTail) := splitSlash head
    let name := nameRaw.toLower
    if name = "all" then
      if colonArg.isNone ∧ slashTail.isNone then some (Sum.inl (.all q))
      else Option.none
    else if name = "ip4" then
      match colonArg, slashTail with
      | some arg, Option.none => (parseCidr4? arg).map (fun c => Sum.inl (.ip4 q c))
      | _, _ => Option.none
    else if name = "ip6" then
      match colonArg, slashTail with
      | some arg, Option.none => (parseCidr6? arg).map (fun c => Sum.inl (.ip6 q c))
      | _, _ => Option.none
    else if name = "a" then
      (parseDualArg q colonArg slashTail .a).map Sum.inl
    else if name = "mx" then
      (parseDualArg q colonArg slashTail .mx).map Sum.inl
    else if name = "ptr" then
      match slashTail with
      | some _ => Option.none
      | Option.none => some (Sum.inl (.ptr q colonArg))
    else if name = "include" then
      match colonArg, slashTail with
      | some d, Option.none =>
        if d.isEmpty then Option.none else some (Sum.inl (.includeMech q d))
      | _, _ => Option.none
    else if name = "exists" then
      match colonArg, slashTail with
      | some d, Option.none =>
        if d.isEmpty then Option.none else some (Sum.inl (.existsMech q d))
      | _, _ => Option.none
    else Option.none

/-- Fold the parsed terms into a record; a later `redirect=` overrides an
earlier one. -/
def collectTerms : List String → Option SpfRecord
  | [] => some ⟨[], Option.none⟩
  | t :: rest =>
    match parseTerm t, collectTerms rest with
    | some (Sum.inl m), some rec0 => some ⟨m :: rec0.mechanisms, rec0.redirect⟩
    | some (Sum.inr r), some rec0 =>
      some ⟨rec0.mechanisms, match rec0.redirect with
                             | Option.none => r
                             | some r0 => some r0⟩
    | _, _ => Option.none

/-- Whether a TXT string qualifies as the SPF record: it begins,
case-insensitively, with the version tag `v=spf1`. -/
def isSpfRecordText (s : String) : Bool :=
  s.toLower.startsWith "v=spf1"

/-- Modelled from the spec: parse a qualifying TXT string into an
`SpfRecord` — drop the version tag, split on spaces, parse each term;
unparseable syntax yields `none` (and `PermError` in the evaluator). -/
def parseRecord (s : String) : Option SpfRecord :=
  let terms := ((s.drop 6).splitOn " ").filter (fun t => ¬t.isEmpty)
  collectTerms terms

/-- Modelled from the spec: the DNS capability consumed by the evaluator
(the `Lookup` trait of dns.rs plus the reverse lookup the `ptr` mechanism
needs), as a deterministic oracle. -/
structure DnsOracle where
  txt : String → Except DnsError (List String)
  ip : String → Except DnsError (List IpAddr)
  mx : String → Except DnsError (List String)
  ptrLookup : String → Except DnsError (List String)

/-- Modelled from the spec: the per-call evaluation context — DNS oracle,
client address, sender and HELO identities, and the configured bounds
(maximum DNS-consuming mechanisms, default 10; maximum MX exchange count,
default 10). -/
structure SpfCtx where
  oracle : DnsOracle
  clientIp : IpAddr
  sender : String
  helo : String
  maxLookups : Nat := 10
  maxMx : Nat := 10

/-- Dotted-quad display of an IPv4 address; an IPv6 value is displayed as
its numeric value (the spec fixes no IPv6 text format). -/
def ipDisplay : IpAddr → String
  | .v4 v =>
    toString (v / 16777216 % 256) ++ "." ++ toString (v / 65536 % 256) ++ "." ++
      toString (v / 256 % 256) ++ "." ++ toString (v % 256)
  | .v6 v => toString v

/-- Modelled from the spec: macro placeholders embedded in mechanism domain
arguments (client address `i`, sender `s`, HELO `h`, current domain `d`)
are substituted before the resulting name is queried. -/
def expandPlaceholders (c : SpfCtx) (dom : String) (s : String) : String :=
  (((s.replace "%{i}" (ipDisplay c.clientIp)).replace "%{s}" c.sender).replace
      "%{h}" c.helo).replace "%{d}" dom

/-- The reverse-lookup name of a client address, per RFC 7208 §5.5 for
IPv4; the IPv6 nibble format is abbreviated to the numeric value (the spec
fixes no format and no claim depends on it). -/
def reverseName : IpAddr → String
  | .v4 v =>
    toString (v % 256) ++ "." ++ toString (v / 256 % 256) ++ "." ++
      toString (v / 65536 % 256) ++ "." ++ toString (v / 16777216 % 256) ++
      ".in-addr.arpa"
  | .v6 v => toString v ++ ".ip6.arpa"

/-- Modelled from the spec: the shared lookup counter.  A DNS-consuming
mechanism first claims one unit of the budget; `none` means the configured
maximum is exhausted and evaluation aborts with `PermError`. -/
def takeLookup (c : SpfCtx) (cnt : Nat) : Option Nat :=
  if cnt < c.maxLookups then some (cnt + 1) else Option.none

/-- Whether a returned address matches the client address under the
optional dual-CIDR length of an `a`/`mx` mechanism (full-length match when
no length is given). -/
def addrMatches (client : IpAddr) (cidrLen : Option Nat) (addr : IpAddr) : Bool :=
  match addr with
  | .v4 _ => cidrContains ⟨addr, cidrLen.getD 32⟩ client
  | .v6 _ => cidrContains ⟨addr, cidrLen.getD 128⟩ client

/-- Address lookup where an absent record set (`NotFound`) is an empty
answer rather than an error, as for the `exists` mechanism ("`NotFound` is
simply no-match, not an error"). -/
def lookupAddrsSoft (o : DnsOracle) (name : String) :
    Except DnsError (List IpAddr) :=
  match o.ip name with
  | .error (DnsError.NotFound _) => .ok []
  | .error e => .error e
  | .ok l => .ok l

/-- The union of the address records of a list of MX exchanges. -/
def collectMxIps (o : DnsOracle) : List String → Except DnsError (List IpAddr)
  | [] => .ok []
  | e :: rest =>
    match lookupAddrsSoft o e, collectMxIps o rest with
    | .ok l, .ok ls => .ok (l ++ ls)
    | .error err, _ => .error err
    | _, .error err => .error err

/-- The addresses of a name, empty on any lookup error (used only for the
forward validation of the legacy `ptr` mechanism, on which the spec is
silent; a failed validation lookup is treated as not validating). -/
def ipsOrEmpty (o : DnsOracle) (name : String) : List IpAddr :=
  match o.ip name with
  | .ok l => l
  | .error _ => []

/-- The qualifier a mechanism carries. -/
def Mechanism.qual : Mechanism → Qualifier
  | .ip4 q _ => q
  | .ip6 q _ => q
  | .a q _ _ => q
  | .mx q _ _ => q
  | .ptr q _ => q
  | .includeMech q _ => q
  | .existsMech q _ => q
  | .all q => q

/-- Outcome of evaluating one mechanism: it matched, it did not match, or
evaluation stops with a terminal result. -/
inductive MechOut where
  | matched
  | noMatch
  | stop (r : SpfResult)
deriving DecidableEq, Repr

/-- Modelled from the spec: how a nested `include` verdict maps to the
including mechanism's outcome — `Pass` is a match;
`Fail`/`SoftFail`/`Neutral` are no-match; `None`/`PermError` become
`PermError`; `TempError` is passed through. -/
def includeOutcome (r : SpfResult) : MechOut :=
  match r with
  | .pass => .matched
  | .fail => .noMatch
  | .softfail => .noMatch
  | .neutral => .noMatch
  | .none => .stop .permError
  | .tempError => .stop .tempError
  | .permError => .stop .permError

/-- Modelled from the spec: the verdict of a redirect target becomes the
overall verdict, except that `None` (the target publishes no record)
becomes `PermError`. -/
def redirectResult (r : SpfResult) : SpfResult :=
  match r with
  | .none => .permError
  | r => r

mutual

/-- Modelled from the spec, §4.2: check one domain.  Fetch TXT records,
select the single `v=spf1` record (zero → `None`, several → `PermError`,
`NotFound` → `None`, `LookupFailed` → `TempError`), parse it (failure →
`PermError`) and evaluate its mechanisms.  `fuel` is the explicit recursion
depth bound (default 10); the current domain joins the visited set for the
nested evaluations. -/
def checkHost (c : SpfCtx) (fuel : Nat) (visited : List String) (cnt : Nat)
    (domain : String) : SpfResult × Nat :=
  match fuel with
  | 0 => (.permError, cnt)
  | fuel' + 1 =>
    match c.oracle.txt domain with
    | .error (DnsError.NotFound _) => (.none, cnt)
    | .error (DnsError.LookupFailed _) => (.tempError, cnt)
    | .ok txts =>
      match txts.filter isSpfRecordText with
      | [] => (.none, cnt)
      | [s] =>
        match parseRecord s with
        | Option.none => (.permError, cnt)
        | some r =>
          evalMechs c fuel' (domain :: visited) domain r.redirect r.mechanisms cnt
      | _ :: _ :: _ => (.permError, cnt)
termination_by (fuel, 0)

/-- Modelled from the spec, §4.2 step 3: evaluate the mechanisms left to
right with first-match short-circuit; on exhaustion follow the redirect
modifier under the same bounds (`None` from the redirect target becomes
`PermError`), else `Neutral`. -/
def evalMechs (c : SpfCtx) (fuel : Nat) (visited : List String)
    (domain : String) (redirect : Option String) (ms : List Mechanism)
    (cnt : Nat) : SpfResult × Nat :=
  match ms with
  | [] =>
    match redirect with
    | Option.none => (.neutral, cnt)
    | some target =>
      let target := expandPlaceholders c domain target
      if visited.contains target then (.permError, cnt)
      else
        match takeLookup c cnt with
        | Option.none => (.permError, cnt)
        | some cnt' =>
          match checkHost c fuel visited cnt' target with
          | (r, cnt'') => (redirectResult r, cnt'')
  | m :: rest =>
    match evalMech c fuel visited domain cnt m with
    | (.matched, cnt') => (m.qual.toResult, cnt')
    | (.noMatch, cnt') => evalMechs c fuel visited domain redirect rest cnt'
    | (.stop r, cnt') => (r, cnt')
termination_by (fuel, ms.length + 2)

/-- Modelled from the spec, §4.2 step 3: evaluate one mechanism against the
client address.  Every DNS-consuming mechanism first claims lookup budget
(exhaustion → `PermError`); `NotFound` answers are no-match; `LookupFailed`
answers abort with `TempError`.  `include` recursively evaluates the target
domain: a visited target is a loop (`PermError`); a nested `Pass` is a
match, `Fail`/`SoftFail`/`Neutral` are no-match, `None`/`PermError` become
`PermError` and `TempError` is passed through. -/
def evalMech (c : SpfCtx) (fuel : Nat) (visited : List String) (dom : String)
    (cnt : Nat) (m : Mechanism) : MechOut × Nat :=
  match m with
  | .all _ => (.matched, cnt)
  | .ip4 _ cidr =>
    (if cidrContains cidr c.clientIp then .matched else .noMatch, cnt)
  | .ip6 _ cidr =>
    (if cidrContains cidr c.clientIp then .matched else .noMatch, cnt)
  | .a _ domArg cidrLen =>
    match takeLookup c cnt with
    | Option.none => (.stop .permError, cnt)
    | some cnt' =>
      let name := expandPlaceholders c dom (domArg.getD dom)
      match c.oracle.ip name with
      | .error (DnsError.NotFound _) => (.noMatch, cnt')
      | .error (DnsError.LookupFailed _) => (.stop .tempError, cnt')
      | .ok ips =>
        (if ips.any (addrMatches c.clientIp cidrLen) then .matched
         else .noMatch, cnt')
  | .mx _ domArg cidrLen =>
    match takeLookup c cnt with
    | Option.none => (.stop .permError, cnt)
    | some cnt' =>
      let name := expandPlaceholders c dom (domArg.getD dom)
      match c.oracle.mx name with
      | .error (DnsError.NotFound _) => (.noMatch, cnt')
      | .error (DnsError.LookupFailed _) => (.stop .tempError, cnt')
      | .ok exchanges =>
        if exchanges.length > c.maxMx then (.stop .permError, cnt')
        else
          match collectMxIps c.oracle exchanges with
          | .error _ => (.stop .tempError, cnt')
          | .ok ips =>
            (if ips.any (addrMatches c.clientIp cidrLen) then .matched
             else .noMatch, cnt')
  | .ptr _ domArg =>
    match takeLookup c cnt with
    | Option.none => (.stop .permError, cnt)
    | some cnt' =>
      let target := expandPlaceholders c dom (domArg.getD dom)
      match c.oracle.ptrLookup (reverseName c.clientIp) with
      | .error (DnsError.NotFound _) => (.noMatch, cnt')
      | .error (DnsError.LookupFailed _) => (.stop .tempError, cnt')
      | .ok names =>
        (if names.any (fun n =>
              n.endsWith target &&
                (ipsOrEmpty c.oracle n).any (fun x => decide (x = c.clientIp)))
         then .matched else .noMatch, cnt')
  | .existsMech _ target =>
    match takeLookup c cnt with
    | Option.none => (.stop .permError, cnt)
    | some cnt' =>
      let name := expandPlaceholders c dom target
      match c.oracle.ip name with
      | .error (DnsError.NotFound _) => (.noMatch, cnt')
      | .error (DnsError.LookupFailed _) => (.stop .tempError, cnt')
      | .ok ips => (if ips.isEmpty then .noMatch else .matched, cnt')
  | .includeMech _ target =>
    let target := expandPlaceholders c dom target
    if visited.contains target then (.stop .permError, cnt)
    else
      match takeLookup c cnt with
      | Option.none => (.stop .permError, cnt)
      | some cnt' =>
        match checkHost c fuel visited cnt' target with
        | (r, cnt'') => (includeOutcome r, cnt'')
termination_by (fuel, 1)

end

/-- Modelled from the spec: the default recursion depth for
include/redirect recursion. -/
def defaultDepth : Nat := 10

/-- Modelled from the spec: the evaluator entry point
`evaluate(sender_domain, client_ip, helo_domain, dns)`; client, HELO and
DNS live in the context.  Returns the verdict together with the final value
of the shared lookup counter. -/
def evaluate (c : SpfCtx) (senderDomain : String) : SpfResult × Nat :=
  checkHost c defaultDepth [] 0 senderDomain

end Spf

namespace Dkim

/-- The five unsupported-option error messages of
`SignerConfig::configure_cfdkim`. -/
def unsupportedMessages : List String :=
  ["atps is not currently supported for RSA keys",
   "atpsh is not currently supported for RSA keys",
   "agent_user_identifier is not currently supported for RSA keys",
   "body_length is not currently supported for RSA keys",
   "reporting is not currently supported for RSA keys"]

/-- A defaults-only configuration with body-length limiting enabled:
the configuration of spec Scenario 4. -/
def cfgBodyLength : SignerConfig :=
  { SignerConfig.withDefaults "example.com" "s1" ["From"] "example-key"
      with body_length := true }

/-- A fully supported defaults-only configuration. -/
def cfgPlain : SignerConfig :=
  SignerConfig.withDefaults "example.com" "s1" ["From"] "example-key"

/-- A key source capability that returns one fixed byte for the example
key and fails for every other descriptor. -/
def exampleGet : KeySource → Except String (List Nat) :=
  fun k => if k = "example-key" then .ok [1, 2, 3] else .error "no such key"

/-- An RSA key parser accepting any non-empty byte sequence. -/
def exampleRsaParse : List Nat → Except String DkimPrivateKey :=
  fun data => if data.isEmpty then .error "empty key" else .ok (.rsa data)

/-- An Ed25519 key parser accepting any non-empty byte sequence. -/
def exampleEdParse : List Nat → Except String DkimPrivateKey :=
  fun data => if data.isEmpty then .error "empty key" else .ok (.ed25519 data)

/-- An example message parse function for `CFSigner.sign`: an empty byte
sequence has no header/body split, anything else splits at its first
byte. -/
def exampleParseBytes : List Nat → Option Mail :=
  fun m => match m with
  | [] => Option.none
  | b :: rest => some ⟨[b], rest⟩

/-- An example inner signing function for `CFSigner.sign`. -/
def exampleSignMail : CfdkimSigner → Mail → Except String String :=
  fun s _ => .ok ("v=1; d=" ++ s.signing_domain)

end Dkim

namespace SpfDns

/-- The MX priority associated with an exchange name by the resolver's
records (the preference of the first record carrying that exchange). -/
def mxPriorityOf (records : List MxRecord) (x : String) : Nat :=
  match records.find? (fun r => decide (r.exchange = x)) with
  | some r => r.preference
  | Option.none => 0

/-- The ordering property claimed of a mail-exchange lookup result: any
exchange returned earlier has an MX priority value less than or equal to
any returned later. -/
def PriorityOrdered (records : List MxRecord) (out : List String) : Prop :=
  out.Pairwise (fun a b => mxPriorityOf records a ≤ mxPriorityOf records b)

end SpfDns

namespace Spf

open SpfDns (DnsError)

/-- A DNS oracle that reports no network errors: no operation ever returns
`LookupFailed`. -/
structure OracleOk (o : DnsOracle) : Prop where
  txt : ∀ n d, o.txt n ≠ .error (DnsError.LookupFailed d)
  ip : ∀ n d, o.ip n ≠ .error (DnsError.LookupFailed d)
  mx : ∀ n d, o.mx n ≠ .error (DnsError.LookupFailed d)
  ptrLookup : ∀ n d, o.ptrLookup n ≠ .error (DnsError.LookupFailed d)

/-- Induction invariant for `checkHost`: from a counter within budget, the
verdict is never `TempError` and the counter stays within budget. -/
def HostP (c : SpfCtx) (fuel : Nat) : Prop :=
  ∀ visited cnt domain, cnt ≤ c.maxLookups →
    (checkHost c fuel visited cnt domain).1 ≠ .tempError ∧
    (checkHost c fuel visited cnt domain).2 ≤ c.maxLookups

/-- Induction invariant for `evalMech`. -/
def MechP (c : SpfCtx) (fuel : Nat) : Prop :=
  ∀ visited dom cnt m, cnt ≤ c.maxLookups →
    (evalMech c fuel visited dom cnt m).1 ≠ .stop .tempError ∧
    (evalMech c fuel visited dom cnt m).2 ≤ c.maxLookups

/-- Induction invariant for `evalMechs`. -/
def MechsP (c : SpfCtx) (fuel : Nat) : Prop :=
  ∀ visited domain redirect ms cnt, cnt ≤ c.maxLookups →
    (evalMechs c fuel visited domain redirect ms cnt).1 ≠ .tempError ∧
    (evalMechs c fuel visited domain redirect ms cnt).2 ≤ c.maxLookups

/-- The six results an evaluation with no network errors can yield. -/
def sixResults : List SpfResult :=
  [.pass, .fail, .softfail, .neutral, .none, .permError]

/-- An oracle whose every answer is an absent record set. -/
def nxOracle : DnsOracle where
  txt := fun n => .error (DnsError.NotFound n)
  ip := fun n => .error (DnsError.NotFound n)
  mx := fun n => .error (DnsError.NotFound n)
  ptrLookup := fun n => .error (DnsError.NotFound n)

/-- A concrete evaluation context over `nxOracle`. -/
def nxCtx : SpfCtx where
  oracle := nxOracle
  clientIp := .v4 16909060
  sender := "a@example.com"
  helo := "mail.example.com"

end Spf

namespace Dkim

/-- A concrete signer handle for evaluating `Signer.sign`. -/
def exampleSigner : Signer :=
  ⟨⟨{ signed_headers := ["From"]
      private_key := .rsa [1, 2, 3]
      selector := "s1"
      signing_domain := "example.com"
      header_canonicalization := .Relaxed
      body_canonicalization := .Relaxed
      expiry := Option.none }⟩⟩

end Dkim

namespace SpfDns

/-- A resolver answer whose MX records are not sorted by preference: the
higher preference value (lower priority) comes first. -/
def mxUnsorted : List MxRecord :=
  [⟨20, "late.example.net"⟩, ⟨10, "early.example.net"⟩]

/-- A resolver returning `mxUnsorted` for every name. -/
def mxResolver : String → Except ResolveErrorKind (List MxRecord) :=
  fun _ => .ok mxUnsorted

/-- A byte decoding for TXT segments: each byte as one character. -/
def exampleDecode : List Nat → String :=
  fun bs => String.mk (bs.map Char.ofNat)

/-- A resolver answer of two TXT records, the first one multi-segment. -/
def txtTwoRecords : List TxtRecord := [[[104, 105], [33]], [[97]]]

/-- A resolver returning `txtTwoRecords` for every name. -/
def txtResolver : String → Except ResolveErrorKind (List TxtRecord) :=
  fun _ => .ok txtTwoRecords

/-- A resolver that always times out, for exercising the non-`NotFound`
error path. -/
def timeoutIpResolver : String → Except ResolveErrorKind (List Nat) :=
  fun _ => .error .Timeout

/-- The MX variant of `timeoutIpResolver`. -/
def timeoutMxResolver : String → Except ResolveErrorKind (List MxRecord) :=
  fun _ => .error .Timeout

/-- The TXT variant of `timeoutIpResolver`. -/
def timeoutTxtResolver : String → Except ResolveErrorKind (List TxtRecord) :=
  fun _ => .error .Timeout

end SpfDns

open Dkim SpfDns in
/-- Helper: `cacheInsert` always produces the new entry at the
most-recently-used position. -/
theorem Dkim.cacheInsert_cons (cache : SignerCache) (cfg : SignerConfig)
    (v : CFSigner) (exp : Nat) :
    cacheInsert cache cfg v exp =
      ⟨cfg, v, exp⟩ ::
        (cache.filter (fun e => decide (e.cfg ≠ cfg))).take 1023 := by
  unfold cacheInsert signerCacheCapacity
  rw [show (1024 : Nat) = 1023 + 1 from rfl, List.take_succ_cons]

/-- Helper: a live head entry is a cache hit for its configuration. -/
theorem Dkim.cacheGet_hit_of_head (now : Nat) (e : CacheEntry)
    (rest : SignerCache) (h : now < e.expires) :
    (cacheGet now (e :: rest) e.cfg).1 = some e.value := by
  simp [cacheGet, h]

/-- C1: any `SignerConfig` with `atps`, `atpsh`, `agent_user_identifier`,
`body_length` or `reporting` set is rejected by `configure_cfdkim` with one
of the explicit "not currently supported" messages, for every key; and on a
cache miss with key fetch and key parse succeeding, `rsa_sha256_signer`
returns that explicit error — construction fails before any message is
signed. -/
theorem c1_unsupported_options_fail_construction
    (cfg : Dkim.SignerConfig)
    (hopt : cfg.atps.isSome ∨ cfg.atpsh.isSome ∨
      cfg.agent_user_identifier.isSome ∨ cfg.body_length = true ∨
      cfg.reporting = true)
    (get : Dkim.KeySource → Except String (List Nat))
    (rsaParse : List Nat → Except String Dkim.DkimPrivateKey)
    (now : Nat) (cache : Dkim.SignerCache) (data : List Nat)
    (k : Dkim.DkimPrivateKey)
    (hmiss : (Dkim.cacheGet now cache cfg).1 = Option.none)
    (hget : get cfg.key = .ok data)
    (hparse : rsaParse data = .ok k) :
    (∀ key, ∃ msg, cfg.configure_cfdkim key = .error msg ∧
      msg ∈ Dkim.unsupportedMessages) ∧
    (∃ msg, (Dkim.rsa_sha256_signer get rsaParse now cache cfg).result =
      .error msg ∧ msg ∈ Dkim.unsupportedMessages) := by
  have hconf : ∀ key, ∃ msg, cfg.configure_cfdkim key = .error msg ∧
      msg ∈ Dkim.unsupportedMessages := by
    intro key
    unfold Dkim.SignerConfig.configure_cfdkim
    split_ifs with h1 h2 h3 h4 h5
    · exact ⟨_, rfl, by simp [Dkim.unsupportedMessages]⟩
    · exact ⟨_, rfl, by simp [Dkim.unsupportedMessages]⟩
    · exact ⟨_, rfl, by simp [Dkim.unsupportedMessages]⟩
    · exact ⟨_, rfl, by simp [Dkim.unsupportedMessages]⟩
    · exact ⟨_, rfl, by simp [Dkim.unsupportedMessages]⟩
    · rcases hopt with h | h | h | h | h <;> simp_all
  refine ⟨hconf, ?_⟩
  obtain ⟨msg, hmsg, hmem⟩ := hconf k
  obtain ⟨snd, hcg⟩ : ∃ snd, Dkim.cacheGet now cache cfg = (Option.none, snd) := by
    cases hcg : Dkim.cacheGet now cache cfg with
    | mk fst s =>
      rw [hcg] at hmiss
      exact ⟨s, by simp_all⟩
  refine ⟨msg, ?_, hmem⟩
  simp [Dkim.rsa_sha256_signer, hcg, hget, hparse, hmsg]

/-- C1 witness: the configuration of spec Scenario 4 (body-length limiting
enabled under an RSA key) fails construction with the explicit
unsupported-option error. -/
theorem c1_witness :
    Dkim.cfgBodyLength.body_length = true ∧
    ((∀ key, ∃ msg, Dkim.cfgBodyLength.configure_cfdkim key = .error msg ∧
        msg ∈ Dkim.unsupportedMessages) ∧
      (∃ msg,
        (Dkim.rsa_sha256_signer Dkim.exampleGet Dkim.exampleRsaParse 0 []
            Dkim.cfgBodyLength).result = .error msg ∧
        msg ∈ Dkim.unsupportedMessages)) :=
  ⟨rfl,
    c1_unsupported_options_fail_construction Dkim.cfgBodyLength
      (Or.inr (Or.inr (Or.inr (Or.inl rfl))))
      Dkim.exampleGet Dkim.exampleRsaParse 0 [] [1, 2, 3]
      (.rsa [1, 2, 3]) rfl rfl rfl⟩

/-- Helper: the unsupported-option checks of `configure_cfdkim` reject any
configuration with one of the five options set, whatever the key. -/
theorem Dkim.configure_error_of_unsupported (cfg : Dkim.SignerConfig)
    (key : Dkim.DkimPrivateKey)
    (hopt : cfg.atps.isSome ∨ cfg.atpsh.isSome ∨
      cfg.agent_user_identifier.isSome ∨ cfg.body_length = true ∨
      cfg.reporting = true) :
    ∃ msg, cfg.configure_cfdkim key = .error msg ∧
      msg ∈ Dkim.unsupportedMessages := by
  unfold Dkim.SignerConfig.configure_cfdkim
  split_ifs with h1 h2 h3 h4 h5
  · exact ⟨_, rfl, by simp [Dkim.unsupportedMessages]⟩
  · exact ⟨_, rfl, by simp [Dkim.unsupportedMessages]⟩
  · exact ⟨_, rfl, by simp [Dkim.unsupportedMessages]⟩
  · exact ⟨_, rfl, by simp [Dkim.unsupportedMessages]⟩
  · exact ⟨_, rfl, by simp [Dkim.unsupportedMessages]⟩
  · rcases hopt with h | h | h | h | h <;> simp_all

/-- Helper: a cache miss exposed as a pair equation. -/
theorem Dkim.cacheGet_miss_pair (now : Nat) (cache : Dkim.SignerCache)
    (cfg : Dkim.SignerConfig)
    (hmiss : (Dkim.cacheGet now cache cfg).1 = Option.none) :
    ∃ snd, Dkim.cacheGet now cache cfg = (Option.none, snd) := by
  cases hcg : Dkim.cacheGet now cache cfg with
  | mk fst s =>
    rw [hcg] at hmiss
    exact ⟨s, by simp_all⟩

/-- C9: on a cache miss in `rsa_sha256_signer`, the key source is consulted
exactly once no matter how construction ends; a key-parse failure is
reported even when the configuration carries an unsupported option (so the
fetch and the parse precede configuration validation), and with fetch and
parse succeeding the unsupported option is then rejected. -/
theorem c9_fetch_and_parse_precede_validation
    (cfg : Dkim.SignerConfig) (hopt : cfg.body_length = true)
    (get : Dkim.KeySource → Except String (List Nat))
    (rsaParse : List Nat → Except String Dkim.DkimPrivateKey)
    (now : Nat) (cache : Dkim.SignerCache)
    (hmiss : (Dkim.cacheGet now cache cfg).1 = Option.none) :
    (Dkim.rsa_sha256_signer get rsaParse now cache cfg).fetches = 1 ∧
    (∀ data e, get cfg.key = .ok data → rsaParse data = .error e →
      (Dkim.rsa_sha256_signer get rsaParse now cache cfg).result =
        .error (cfg.key ++ ": " ++ e)) ∧
    (∀ data k, get cfg.key = .ok data → rsaParse data = .ok k →
      ∃ msg, (Dkim.rsa_sha256_signer get rsaParse now cache cfg).result =
        .error msg ∧ msg ∈ Dkim.unsupportedMessages) := by
  obtain ⟨snd, hcg⟩ := Dkim.cacheGet_miss_pair now cache cfg hmiss
  refine ⟨?_, ?_, ?_⟩
  · cases hget : get cfg.key with
    | error e => simp [Dkim.rsa_sha256_signer, hcg, hget]
    | ok data =>
      cases hparse : rsaParse data with
      | error e => simp [Dkim.rsa_sha256_signer, hcg, hget, hparse]
      | ok k =>
        cases hconf : cfg.configure_cfdkim k with
        | error m => simp [Dkim.rsa_sha256_signer, hcg, hget, hparse, hconf]
        | ok s => simp [Dkim.rsa_sha256_signer, hcg, hget, hparse, hconf]
  · intro data e hget hparse
    simp [Dkim.rsa_sha256_signer, hcg, hget, hparse]
  · intro data k hget hparse
    obtain ⟨msg, hm, hmem⟩ :=
      Dkim.configure_error_of_unsupported cfg k
        (Or.inr (Or.inr (Or.inr (Or.inl hopt))))
    exact ⟨msg, by simp [Dkim.rsa_sha256_signer, hcg, hget, hparse, hm], hmem⟩

/-- C9 witness: the body-length configuration at a concrete empty cache. -/
theorem c9_witness :
    Dkim.cfgBodyLength.body_length = true ∧
    ((Dkim.rsa_sha256_signer Dkim.exampleGet Dkim.exampleRsaParse 0 []
        Dkim.cfgBodyLength).fetches = 1 ∧
      (∀ data e, Dkim.exampleGet Dkim.cfgBodyLength.key = .ok data →
        Dkim.exampleRsaParse data = .error e →
        (Dkim.rsa_sha256_signer Dkim.exampleGet Dkim.exampleRsaParse 0 []
            Dkim.cfgBodyLength).result =
          .error (Dkim.cfgBodyLength.key ++ ": " ++ e)) ∧
      (∀ data k, Dkim.exampleGet Dkim.cfgBodyLength.key = .ok data →
        Dkim.exampleRsaParse data = .ok k →
        ∃ msg,
          (Dkim.rsa_sha256_signer Dkim.exampleGet Dkim.exampleRsaParse 0 []
              Dkim.cfgBodyLength).result = .error msg ∧
          msg ∈ Dkim.unsupportedMessages)) :=
  ⟨rfl,
    c9_fetch_and_parse_precede_validation Dkim.cfgBodyLength rfl
      Dkim.exampleGet Dkim.exampleRsaParse 0 [] rfl⟩

/-- C10: `ed25519_signer` validates through the same `configure_cfdkim` as
the RSA entry point: an Ed25519 configuration with one of the five
unsupported options set fails construction on a cache miss (with fetch and
parse succeeding), and the error message it returns describes the option as
unsupported for RSA keys. -/
theorem c10_ed25519_rejects_with_rsa_message
    (cfg : Dkim.SignerConfig)
    (hopt : cfg.atps.isSome ∨ cfg.atpsh.isSome ∨
      cfg.agent_user_identifier.isSome ∨ cfg.body_length = true ∨
      cfg.reporting = true)
    (get : Dkim.KeySource → Except String (List Nat))
    (edParse : List Nat → Except String Dkim.DkimPrivateKey)
    (now : Nat) (cache : Dkim.SignerCache) (data : List Nat)
    (k : Dkim.DkimPrivateKey)
    (hmiss : (Dkim.cacheGet now cache cfg).1 = Option.none)
    (hget : get cfg.key = .ok data)
    (hparse : edParse data = .ok k) :
    ∃ msg, cfg.configure_cfdkim k = .error msg ∧
      (Dkim.ed25519_signer get edParse now cache cfg).result = .error msg ∧
      msg ∈ Dkim.unsupportedMessages ∧
      "for RSA keys".data.isSuffixOf msg.data = true := by
  obtain ⟨snd, hcg⟩ := Dkim.cacheGet_miss_pair now cache cfg hmiss
  obtain ⟨msg, hm, hmem⟩ := Dkim.configure_error_of_unsupported cfg k hopt
  refine ⟨msg, hm, ?_, hmem, ?_⟩
  · simp [Dkim.ed25519_signer, hcg, hget, hparse, hm]
  · have hall : Dkim.unsupportedMessages.all
        (fun m => "for RSA keys".data.isSuffixOf m.data) = true := by decide
    exact List.all_eq_true.mp hall msg hmem

/-- C10 witness: an Ed25519 configuration with an agent user identifier is
rejected with the RSA-worded message. -/
theorem c10_witness :
    (Dkim.cfgBodyLength.atps.isSome ∨ Dkim.cfgBodyLength.atpsh.isSome ∨
      Dkim.cfgBodyLength.agent_user_identifier.isSome ∨
      Dkim.cfgBodyLength.body_length = true ∨
      Dkim.cfgBodyLength.reporting = true) ∧
    ∃ msg, Dkim.cfgBodyLength.configure_cfdkim (.ed25519 [1, 2, 3]) =
        .error msg ∧
      (Dkim.ed25519_signer Dkim.exampleGet Dkim.exampleEdParse 0 []
          Dkim.cfgBodyLength).result = .error msg ∧
      msg ∈ Dkim.unsupportedMessages ∧
      "for RSA keys".data.isSuffixOf msg.data = true :=
  ⟨Or.inr (Or.inr (Or.inr (Or.inl rfl))),
    c10_ed25519_rejects_with_rsa_message Dkim.cfgBodyLength
      (Or.inr (Or.inr (Or.inr (Or.inl rfl))))
      Dkim.exampleGet Dkim.exampleEdParse 0 [] [1, 2, 3]
      (.ed25519 [1, 2, 3]) rfl rfl rfl⟩

/-- C5: a cache-miss construction that succeeds returns the constructed
signer and inserts it with expiration `now + ttl`; `ttl` deserializes to
300 when not specified. -/
theorem c5_success_inserts_now_plus_ttl
    (get : Dkim.KeySource → Except String (List Nat))
    (rsaParse : List Nat → Except String Dkim.DkimPrivateKey)
    (now : Nat) (cache : Dkim.SignerCache) (cfg : Dkim.SignerConfig)
    (data : List Nat) (k : Dkim.DkimPrivateKey) (s : Dkim.CfdkimSigner)
    (hmiss : (Dkim.cacheGet now cache cfg).1 = Option.none)
    (hget : get cfg.key = .ok data)
    (hparse : rsaParse data = .ok k)
    (hconf : cfg.configure_cfdkim k = .ok s) :
    (Dkim.rsa_sha256_signer get rsaParse now cache cfg).result = .ok ⟨⟨s⟩⟩ ∧
    (Dkim.rsa_sha256_signer get rsaParse now cache cfg).cache =
      Dkim.cacheInsert (Dkim.cacheGet now cache cfg).2 cfg ⟨s⟩
        (now + cfg.ttl) ∧
    (Dkim.rsa_sha256_signer get rsaParse now cache cfg).cache.head? =
      some ⟨cfg, ⟨s⟩, now + cfg.ttl⟩ ∧
    Dkim.SignerConfig.default_ttl = 300 ∧
    (∀ d sel hs ks, (Dkim.SignerConfig.withDefaults d sel hs ks).ttl = 300) := by
  obtain ⟨snd, hcg⟩ := Dkim.cacheGet_miss_pair now cache cfg hmiss
  refine ⟨?_, ?_, ?_, rfl, fun d sel hs ks => rfl⟩
  · simp [Dkim.rsa_sha256_signer, hcg, hget, hparse, hconf]
  · simp [Dkim.rsa_sha256_signer, hcg, hget, hparse, hconf]
  · simp [Dkim.rsa_sha256_signer, hcg, hget, hparse, hconf,
      Dkim.cacheInsert_cons]

/-- C5 witness: the plain defaulted configuration constructed at instant 7
with an empty cache. -/
theorem c5_witness :
    (Dkim.rsa_sha256_signer Dkim.exampleGet Dkim.exampleRsaParse 7 []
        Dkim.cfgPlain).result =
      .ok ⟨⟨{ signed_headers := ["From"]
              private_key := .rsa [1, 2, 3]
              selector := "s1"
              signing_domain := "example.com"
              header_canonicalization := .Relaxed
              body_canonicalization := .Relaxed
              expiry := Option.none }⟩⟩ ∧
    (Dkim.rsa_sha256_signer Dkim.exampleGet Dkim.exampleRsaParse 7 []
        Dkim.cfgPlain).cache.head? =
      some ⟨Dkim.cfgPlain,
        ⟨{ signed_headers := ["From"]
           private_key := .rsa [1, 2, 3]
           selector := "s1"
           signing_domain := "example.com"
           header_canonicalization := .Relaxed
           body_canonicalization := .Relaxed
           expiry := Option.none }⟩, 7 + Dkim.cfgPlain.ttl⟩ ∧
    Dkim.cfgPlain.ttl = 300 := by
  have h := c5_success_inserts_now_plus_ttl Dkim.exampleGet
    Dkim.exampleRsaParse 7 [] Dkim.cfgPlain [1, 2, 3] (.rsa [1, 2, 3])
    { signed_headers := ["From"]
      private_key := .rsa [1, 2, 3]
      selector := "s1"
      signing_domain := "example.com"
      header_canonicalization := .Relaxed
      body_canonicalization := .Relaxed
      expiry := Option.none }
    rfl rfl rfl rfl
  exact ⟨h.1, h.2.2.1, rfl⟩

/-- C6: `Signer.sign` fails with the parse error, and no signature header,
when the message cannot be split into header block and body; otherwise it
returns exactly what signing the parsed message produces. -/
theorem c6_sign_parse_gate
    (parseBytes : List Nat → Option Dkim.Mail)
    (signMail : Dkim.CfdkimSigner → Dkim.Mail → Except String String)
    (s : Dkim.Signer) (message : List Nat) :
    (parseBytes message = Option.none →
      Dkim.Signer.sign parseBytes signMail s message =
        .error "failed to parse message to pass to dkim signer") ∧
    (∀ mail, parseBytes message = some mail →
      Dkim.Signer.sign parseBytes signMail s message =
        signMail s.inner.signer mail) := by
  constructor
  · intro h
    simp [Dkim.Signer.sign, Dkim.CFSigner.sign, h]
  · intro mail h
    simp [Dkim.Signer.sign, Dkim.CFSigner.sign, h]

/-- C6 witness: the empty message has no header/body split and yields the
parse error; a non-empty message is signed. -/
theorem c6_witness :
    Dkim.Signer.sign Dkim.exampleParseBytes Dkim.exampleSignMail
        Dkim.exampleSigner [] =
      .error "failed to parse message to pass to dkim signer" ∧
    Dkim.Signer.sign Dkim.exampleParseBytes Dkim.exampleSignMail
        Dkim.exampleSigner [7, 8] =
      .ok "v=1; d=example.com" := by
  refine ⟨(c6_sign_parse_gate Dkim.exampleParseBytes Dkim.exampleSignMail
    Dkim.exampleSigner []).1 rfl, ?_⟩
  have h := (c6_sign_parse_gate Dkim.exampleParseBytes Dkim.exampleSignMail
    Dkim.exampleSigner [7, 8]).2 ⟨[7], [8]⟩ rfl
  rw [h]
  rfl

/-- C3: `NoRecordsFound` is translated to `NotFound` with the queried name;
every other resolver error kind is translated to `LookupFailed` carrying
the name and the failure detail; and each of the three lookup operations
routes its resolver error through this translation, so only `DnsError`
crosses the capability boundary. -/
theorem c3_error_translation
    (rIp : String → Except SpfDns.ResolveErrorKind (List Nat))
    (rMx : String → Except SpfDns.ResolveErrorKind (List SpfDns.MxRecord))
    (rTxt : String → Except SpfDns.ResolveErrorKind (List SpfDns.TxtRecord))
    (decode : List Nat → String) (name : String)
    (e : SpfDns.ResolveErrorKind) :
    (∀ q, SpfDns.DnsError.from_resolve name (.NoRecordsFound q) =
      .NotFound name) ∧
    ((∀ q, e ≠ .NoRecordsFound q) →
      SpfDns.DnsError.from_resolve name e =
        .LookupFailed ("failed to query DNS for " ++ name ++ ": " ++
          e.display)) ∧
    (rIp name = .error e →
      SpfDns.lookup_ip rIp name =
        .error (SpfDns.DnsError.from_resolve name e)) ∧
    (rMx name = .error e →
      SpfDns.lookup_mx rMx name =
        .error (SpfDns.DnsError.from_resolve name e)) ∧
    (rTxt name = .error e →
      SpfDns.lookup_txt decode rTxt name =
        .error (SpfDns.DnsError.from_resolve name e)) := by
  refine ⟨fun q => rfl, ?_, ?_, ?_, ?_⟩
  · intro h
    cases e with
    | NoRecordsFound q => exact absurd rfl (h q)
    | Message m => rfl
    | Io m => rfl
    | Proto m => rfl
    | Timeout => rfl
  · intro h
    simp [SpfDns.lookup_ip, h]
  · intro h
    simp [SpfDns.lookup_mx, h]
  · intro h
    simp [SpfDns.lookup_txt, h]

/-- C3 witness: a timed-out resolver's error reaches the caller as
`LookupFailed` with the name and detail, for all three operations; an
absent record set becomes `NotFound`. -/
theorem c3_witness :
    SpfDns.DnsError.from_resolve "host.example" (.NoRecordsFound "q") =
      .NotFound "host.example" ∧
    SpfDns.lookup_ip SpfDns.timeoutIpResolver "host.example" =
      .error (SpfDns.DnsError.from_resolve "host.example" .Timeout) ∧
    SpfDns.lookup_mx SpfDns.timeoutMxResolver "host.example" =
      .error (SpfDns.DnsError.from_resolve "host.example" .Timeout) ∧
    SpfDns.lookup_txt SpfDns.exampleDecode SpfDns.timeoutTxtResolver
        "host.example" =
      .error (SpfDns.DnsError.from_resolve "host.example" .Timeout) := by
  have h := c3_error_translation SpfDns.timeoutIpResolver
    SpfDns.timeoutMxResolver SpfDns.timeoutTxtResolver SpfDns.exampleDecode
    "host.example" .Timeout
  exact ⟨h.1 "q", h.2.2.1 rfl, h.2.2.2.1 rfl, h.2.2.2.2 rfl⟩

/-- C7 counterexample: `lookup_mx` returns exchanges in the order the
resolver returned the records, so when the resolver's answer lists the
preference-20 record before the preference-10 record, the returned list is
not in priority order. -/
theorem c7_counterexample :
    SpfDns.lookup_mx SpfDns.mxResolver "example.org" =
      .ok ["late.example.net", "early.example.net"] ∧
    ¬ SpfDns.PriorityOrdered SpfDns.mxUnsorted
      ["late.example.net", "early.example.net"] := by
  refine ⟨rfl, ?_⟩
  intro h
  have h20 : SpfDns.mxPriorityOf SpfDns.mxUnsorted "late.example.net" ≤
      SpfDns.mxPriorityOf SpfDns.mxUnsorted "early.example.net" := by
    have := List.pairwise_cons.mp h
    exact this.1 _ (by simp)
  revert h20
  decide

/-- C7 (amended): a successful mail-exchange lookup returns the exchange
host name of each resolver record, in exactly the order the resolver
returned the records; no re-sorting by MX priority is performed. -/
theorem c7_mx_order_as_returned
    (resolver : String → Except SpfDns.ResolveErrorKind (List SpfDns.MxRecord))
    (name : String) (records : List SpfDns.MxRecord)
    (h : resolver name = .ok records) :
    SpfDns.lookup_mx resolver name =
      .ok (records.map (fun r => r.exchange)) := by
  simp [SpfDns.lookup_mx, h]

/-- C7 witness: the unsorted two-record answer maps to its exchanges in
resolver order. -/
theorem c7_witness :
    SpfDns.mxResolver "example.org" = .ok SpfDns.mxUnsorted ∧
    SpfDns.lookup_mx SpfDns.mxResolver "example.org" =
      .ok (SpfDns.mxUnsorted.map (fun r => r.exchange)) :=
  ⟨rfl, c7_mx_order_as_returned SpfDns.mxResolver "example.org"
    SpfDns.mxUnsorted rfl⟩

/-- C8: a successful text-record lookup returns one string per TXT record —
the concatenation of that record's segments' decodings in order — so
multi-segment records are concatenated per record and never merged across
records. -/
theorem c8_txt_concatenated_per_record
    (decode : List Nat → String)
    (resolver : String → Except SpfDns.ResolveErrorKind (List SpfDns.TxtRecord))
    (name : String) (records : List SpfDns.TxtRecord)
    (h : resolver name = .ok records) :
    SpfDns.lookup_txt decode resolver name =
      .ok (records.map (fun txt => String.join (txt.map decode))) ∧
    (records.map (fun txt => String.join (txt.map decode))).length =
      records.length ∧
    (∀ i, (records.map (fun txt => String.join (txt.map decode))).get? i =
      (records.get? i).map (fun txt => String.join (txt.map decode))) := by
  refine ⟨by simp [SpfDns.lookup_txt, h], by simp, ?_⟩
  intro i
  simp [List.getElem?_map]

/-- C8 witness: two TXT records, the first of two segments, decode to two
strings — `"hi" ++ "!"` concatenated within the first record, the second
record kept separate. -/
theorem c8_witness :
    SpfDns.txtResolver "example.org" = .ok SpfDns.txtTwoRecords ∧
    SpfDns.lookup_txt SpfDns.exampleDecode SpfDns.txtResolver "example.org" =
      .ok ["hi!", "a"] := by
  refine ⟨rfl, ?_⟩
  have h := (c8_txt_concatenated_per_record SpfDns.exampleDecode
    SpfDns.txtResolver "example.org" SpfDns.txtTwoRecords rfl).1
  rw [h]
  rfl

/-- C2: a non-expired cache hit returns the cached signer with zero key
fetches and an unchanged (beyond recency/expiry maintenance) cache; and two
sequential acquisitions of an identical configuration, the second within
the ttl of the first, perform exactly one key fetch in total and return the
same underlying signer. -/
theorem c2_hit_skips_key_source
    (get : Dkim.KeySource → Except String (List Nat))
    (rsaParse : List Nat → Except String Dkim.DkimPrivateKey)
    (cfg : Dkim.SignerConfig) :
    (∀ now cache inner rest,
      Dkim.cacheGet now cache cfg = (some inner, rest) →
      Dkim.rsa_sha256_signer get rsaParse now cache cfg =
        ⟨.ok ⟨inner⟩, rest, 0⟩) ∧
    (∀ now now' cache data k s,
      (Dkim.cacheGet now cache cfg).1 = Option.none →
      get cfg.key = .ok data →
      rsaParse data = .ok k →
      cfg.configure_cfdkim k = .ok s →
      now' < now + cfg.ttl →
      (Dkim.rsa_sha256_signer get rsaParse now cache cfg).fetches +
        (Dkim.rsa_sha256_signer get rsaParse now'
          (Dkim.rsa_sha256_signer get rsaParse now cache cfg).cache
          cfg).fetches = 1 ∧
      (Dkim.rsa_sha256_signer get rsaParse now'
          (Dkim.rsa_sha256_signer get rsaParse now cache cfg).cache
          cfg).result =
        (Dkim.rsa_sha256_signer get rsaParse now cache cfg).result) := by
  constructor
  · intro now cache inner rest h
    simp [Dkim.rsa_sha256_signer, h]
  · intro now now' cache data k s hmiss hget hparse hconf hlt
    obtain ⟨snd, hcg⟩ := Dkim.cacheGet_miss_pair now cache cfg hmiss
    have h1 : Dkim.rsa_sha256_signer get rsaParse now cache cfg =
        ⟨.ok ⟨⟨s⟩⟩,
          Dkim.cacheInsert snd cfg ⟨s⟩ (now + cfg.ttl), 1⟩ := by
      simp [Dkim.rsa_sha256_signer, hcg, hget, hparse, hconf]
    rw [h1]
    have hins := Dkim.cacheInsert_cons snd cfg ⟨s⟩ (now + cfg.ttl)
    have hhit : (Dkim.cacheGet now'
        (Dkim.cacheInsert snd cfg ⟨s⟩ (now + cfg.ttl)) cfg).1 =
        some ⟨s⟩ := by
      rw [hins]
      exact Dkim.cacheGet_hit_of_head now'
        ⟨cfg, ⟨s⟩, now + cfg.ttl⟩ _ hlt
    cases hcg2 : Dkim.cacheGet now'
        (Dkim.cacheInsert snd cfg ⟨s⟩ (now + cfg.ttl)) cfg with
    | mk fst2 snd2 =>
      rw [hcg2] at hhit
      simp only [] at hhit
      subst hhit
      simp [Dkim.rsa_sha256_signer, hcg2]

/-- C2 witness: a concrete hit returns the cached signer without a fetch;
two sequential calls from an empty cache at instants 0 and 1 fetch once and
agree on the returned signer. -/
theorem c2_witness :
    Dkim.rsa_sha256_signer Dkim.exampleGet Dkim.exampleRsaParse 0
        [⟨Dkim.cfgPlain, Dkim.exampleSigner.inner, 5⟩] Dkim.cfgPlain =
      ⟨.ok ⟨Dkim.exampleSigner.inner⟩,
        [⟨Dkim.cfgPlain, Dkim.exampleSigner.inner, 5⟩], 0⟩ ∧
    ((Dkim.rsa_sha256_signer Dkim.exampleGet Dkim.exampleRsaParse 0 []
        Dkim.cfgPlain).fetches +
      (Dkim.rsa_sha256_signer Dkim.exampleGet Dkim.exampleRsaParse 1
        (Dkim.rsa_sha256_signer Dkim.exampleGet Dkim.exampleRsaParse 0 []
          Dkim.cfgPlain).cache Dkim.cfgPlain).fetches = 1 ∧
      (Dkim.rsa_sha256_signer Dkim.exampleGet Dkim.exampleRsaParse 1
        (Dkim.rsa_sha256_signer Dkim.exampleGet Dkim.exampleRsaParse 0 []
          Dkim.cfgPlain).cache Dkim.cfgPlain).result =
      (Dkim.rsa_sha256_signer Dkim.exampleGet Dkim.exampleRsaParse 0 []
        Dkim.cfgPlain).result) := by
  have h := c2_hit_skips_key_source Dkim.exampleGet Dkim.exampleRsaParse
    Dkim.cfgPlain
  refine ⟨h.1 0 _ _ _ rfl,
    h.2 0 1 [] [1, 2, 3] (.rsa [1, 2, 3])
      { signed_headers := ["From"]
        private_key := .rsa [1, 2, 3]
        selector := "s1"
        signing_domain := "example.com"
        header_canonicalization := .Relaxed
        body_canonicalization := .Relaxed
        expiry := Option.none }
      rfl rfl rfl rfl (by decide)⟩

/-- Helper: a successful budget claim stays within the configured
maximum. -/
theorem Spf.takeLookup_le (c : Spf.SpfCtx) (cnt cnt' : Nat)
    (h : Spf.takeLookup c cnt = some cnt') : cnt' ≤ c.maxLookups := by
  by_cases hlt : cnt < c.maxLookups
  · simp [Spf.takeLookup, hlt] at h
    omega
  · simp [Spf.takeLookup, hlt] at h

/-- Helper: with no network errors the soft address lookup always
succeeds. -/
theorem Spf.lookupAddrsSoft_ok (o : Spf.DnsOracle) (hok : Spf.OracleOk o)
    (name : String) : ∃ l, Spf.lookupAddrsSoft o name = .ok l := by
  unfold Spf.lookupAddrsSoft
  cases hip : o.ip name with
  | ok l => exact ⟨l, rfl⟩
  | error e =>
    cases e with
    | NotFound n => exact ⟨[], rfl⟩
    | LookupFailed d => exact absurd hip (hok.ip name d)

/-- Helper: with no network errors the MX address union always succeeds. -/
theorem Spf.collectMxIps_ok (o : Spf.DnsOracle) (hok : Spf.OracleOk o) :
    ∀ es, ∃ l, Spf.collectMxIps o es = .ok l := by
  intro es
  induction es with
  | nil => exact ⟨[], rfl⟩
  | cons e rest ih =>
    obtain ⟨l1, h1⟩ := Spf.lookupAddrsSoft_ok o hok e
    obtain ⟨l2, h2⟩ := ih
    exact ⟨l1 ++ l2, by simp [Spf.collectMxIps, h1, h2]⟩

/-- Helper: a matched qualifier never classifies as `TempError`. -/
theorem Spf.toResult_ne_tempError (q : Spf.Qualifier) :
    q.toResult ≠ .tempError := by
  cases q <;> simp [Spf.Qualifier.toResult]

/-- Helper: the include outcome of a non-`TempError` nested verdict never
stops with `TempError`. -/
theorem Spf.includeOutcome_ne (r : Spf.SpfResult) (h : r ≠ .tempError) :
    Spf.includeOutcome r ≠ .stop .tempError := by
  cases r <;> simp_all [Spf.includeOutcome]

/-- Helper: the redirect mapping of a non-`TempError` verdict is not
`TempError`. -/
theorem Spf.redirectResult_ne (r : Spf.SpfResult) (h : r ≠ .tempError) :
    Spf.redirectResult r ≠ .tempError := by
  cases r <;> simp_all [Spf.redirectResult]

/-- Helper: under an error-free oracle, one mechanism evaluation neither
stops with `TempError` nor exceeds the lookup budget. -/
theorem Spf.evalMech_ok (c : Spf.SpfCtx) (fuel : Nat)
    (hok : Spf.OracleOk c.oracle) (hhost : Spf.HostP c fuel) :
    Spf.MechP c fuel := by
  intro visited dom cnt m hcnt
  cases m with
  | all q =>
    have heq : Spf.evalMech c fuel visited dom cnt (.all q) =
        (.matched, cnt) := by simp [Spf.evalMech]
    rw [heq]
    exact ⟨by simp, hcnt⟩
  | ip4 q cidr =>
    by_cases hb : Spf.cidrContains cidr c.clientIp = true
    · have heq : Spf.evalMech c fuel visited dom cnt (.ip4 q cidr) =
          (.matched, cnt) := by simp [Spf.evalMech, hb]
      rw [heq]
      exact ⟨by simp, hcnt⟩
    · have heq : Spf.evalMech c fuel visited dom cnt (.ip4 q cidr) =
          (.noMatch, cnt) := by simp [Spf.evalMech, hb]
      rw [heq]
      exact ⟨by simp, hcnt⟩
  | ip6 q cidr =>
    by_cases hb : Spf.cidrContains cidr c.clientIp = true
    · have heq : Spf.evalMech c fuel visited dom cnt (.ip6 q cidr) =
          (.matched, cnt) := by simp [Spf.evalMech, hb]
      rw [heq]
      exact ⟨by simp, hcnt⟩
    · have heq : Spf.evalMech c fuel visited dom cnt (.ip6 q cidr) =
          (.noMatch, cnt) := by simp [Spf.evalMech, hb]
      rw [heq]
      exact ⟨by simp, hcnt⟩
  | a q domArg cidrLen =>
    cases htake : Spf.takeLookup c cnt with
    | none =>
      have heq : Spf.evalMech c fuel visited dom cnt (.a q domArg cidrLen) =
          (.stop .permError, cnt) := by simp [Spf.evalMech, htake]
      rw [heq]
      exact ⟨by simp, hcnt⟩
    | some cnt' =>
      have hle := Spf.takeLookup_le c cnt cnt' htake
      cases hip : c.oracle.ip
          (Spf.expandPlaceholders c dom (domArg.getD dom)) with
      | error e =>
        cases e with
        | NotFound n =>
          have heq : Spf.evalMech c fuel visited dom cnt
              (.a q domArg cidrLen) = (.noMatch, cnt') := by
            simp [Spf.evalMech, htake, hip]
          rw [heq]
          exact ⟨by simp, hle⟩
        | LookupFailed d => exact absurd hip (hok.ip _ d)
      | ok ips =>
        by_cases hb : ips.any (Spf.addrMatches c.clientIp cidrLen) = true
        · have heq : Spf.evalMech c fuel visited dom cnt
              (.a q domArg cidrLen) = (.matched, cnt') := by
            simp [Spf.evalMech, htake, hip, hb]
          rw [heq]
          exact ⟨by simp, hle⟩
        · have heq : Spf.evalMech c fuel visited dom cnt
              (.a q domArg cidrLen) = (.noMatch, cnt') := by
            simp [Spf.evalMech, htake, hip, hb]
          rw [heq]
          exact ⟨by simp, hle⟩
  | mx q domArg cidrLen =>
    cases htake : Spf.takeLookup c cnt with
    | none =>
      have heq : Spf.evalMech c fuel visited dom cnt (.mx q domArg cidrLen) =
          (.stop .permError, cnt) := by simp [Spf.evalMech, htake]
      rw [heq]
      exact ⟨by simp, hcnt⟩
    | some cnt' =>
      have hle := Spf.takeLookup_le c cnt cnt' htake
      cases hmx : c.oracle.mx
          (Spf.expandPlaceholders c dom (domArg.getD dom)) with
      | error e =>
        cases e with
        | NotFound n =>
          have heq : Spf.evalMech c fuel visited dom cnt
              (.mx q domArg cidrLen) = (.noMatch, cnt') := by
            simp [Spf.evalMech, htake, hmx]
          rw [heq]
          exact ⟨by simp, hle⟩
        | LookupFailed d => exact absurd hmx (hok.mx _ d)
      | ok exchanges =>
        by_cases hlen : exchanges.length > c.maxMx
        · have heq : Spf.evalMech c fuel visited dom cnt
              (.mx q domArg cidrLen) = (.stop .permError, cnt') := by
            simp [Spf.evalMech, htake, hmx, hlen]
          rw [heq]
          exact ⟨by simp, hle⟩
        · obtain ⟨l, hl⟩ := Spf.collectMxIps_ok c.oracle hok exchanges
          by_cases hb : l.any (Spf.addrMatches c.clientIp cidrLen) = true
          · have heq : Spf.evalMech c fuel visited dom cnt
                (.mx q domArg cidrLen) = (.matched, cnt') := by
              simp [Spf.evalMech, htake, hmx, hlen, hl, hb]
            rw [heq]
            exact ⟨by simp, hle⟩
          · have heq : Spf.evalMech c fuel visited dom cnt
                (.mx q domArg cidrLen) = (.noMatch, cnt') := by
              simp [Spf.evalMech, htake, hmx, hlen, hl, hb]
            rw [heq]
            exact ⟨by simp, hle⟩
  | ptr q domArg =>
    cases htake : Spf.takeLookup c cnt with
    | none =>
      have heq : Spf.evalMech c fuel visited dom cnt (.ptr q domArg) =
          (.stop .permError, cnt) := by simp [Spf.evalMech, htake]
      rw [heq]
      exact ⟨by simp, hcnt⟩
    | some cnt' =>
      have hle := Spf.takeLookup_le c cnt cnt' htake
      cases hptr : c.oracle.ptrLookup (Spf.reverseName c.clientIp) with
      | error e =>
        cases e with
        | NotFound n =>
          have heq : Spf.evalMech c fuel visited dom cnt (.ptr q domArg) =
              (.noMatch, cnt') := by simp [Spf.evalMech, htake, hptr]
          rw [heq]
          exact ⟨by simp, hle⟩
        | LookupFailed d => exact absurd hptr (hok.ptrLookup _ d)
      | ok names =>
        by_cases hb : names.any (fun n =>
            n.endsWith (Spf.expandPlaceholders c dom (domArg.getD dom)) &&
              (Spf.ipsOrEmpty c.oracle n).any
                (fun x => decide (x = c.clientIp))) = true
        · have heq : Spf.evalMech c fuel visited dom cnt (.ptr q domArg) =
              (.matched, cnt') := by simp [Spf.evalMech, htake, hptr, hb]
          rw [heq]
          exact ⟨by simp, hle⟩
        · have heq : Spf.evalMech c fuel visited dom cnt (.ptr q domArg) =
              (.noMatch, cnt') := by simp [Spf.evalMech, htake, hptr, hb]
          rw [heq]
          exact ⟨by simp, hle⟩
  | existsMech q target =>
    cases htake : Spf.takeLookup c cnt with
    | none =>
      have heq : Spf.evalMech c fuel visited dom cnt (.existsMech q target) =
          (.stop .permError, cnt) := by simp [Spf.evalMech, htake]
      rw [heq]
      exact ⟨by simp, hcnt⟩
    | some cnt' =>
      have hle := Spf.takeLookup_le c cnt cnt' htake
      cases hip : c.oracle.ip (Spf.expandPlaceholders c dom target) with
      | error e =>
        cases e with
        | NotFound n =>
          have heq : Spf.evalMech c fuel visited dom cnt
              (.existsMech q target) = (.noMatch, cnt') := by
            simp [Spf.evalMech, htake, hip]
          rw [heq]
          exact ⟨by simp, hle⟩
        | LookupFailed d => exact absurd hip (hok.ip _ d)
      | ok ips =>
        by_cases hb : ips.isEmpty = true
        · have heq : Spf.evalMech c fuel visited dom cnt
              (.existsMech q target) = (.noMatch, cnt') := by
            simp [Spf.evalMech, htake, hip, hb]
          rw [heq]
          exact ⟨by simp, hle⟩
        · have heq : Spf.evalMech c fuel visited dom cnt
              (.existsMech q target) = (.matched, cnt') := by
            simp [Spf.evalMech, htake, hip, hb]
          rw [heq]
          exact ⟨by simp, hle⟩
  | includeMech q target =>
    by_cases hvis : Spf.expandPlaceholders c dom target ∈ visited
    · have heq : Spf.evalMech c fuel visited dom cnt (.includeMech q target) =
          (.stop .permError, cnt) := by simp [Spf.evalMech, hvis]
      rw [heq]
      exact ⟨by simp, hcnt⟩
    · cases htake : Spf.takeLookup c cnt with
      | none =>
        have heq : Spf.evalMech c fuel visited dom cnt
            (.includeMech q target) = (.stop .permError, cnt) := by
          simp [Spf.evalMech, hvis, htake]
        rw [heq]
        exact ⟨by simp, hcnt⟩
      | some cnt' =>
        have hle := Spf.takeLookup_le c cnt cnt' htake
        have hh := hhost visited cnt'
          (Spf.expandPlaceholders c dom target) hle
        cases hch : Spf.checkHost c fuel visited cnt'
            (Spf.expandPlaceholders c dom target) with
        | mk r n =>
          rw [hch] at hh
          have heq : Spf.evalMech c fuel visited dom cnt
              (.includeMech q target) = (Spf.includeOutcome r, n) := by
            simp [Spf.evalMech, hvis, htake, hch]
          rw [heq]
          exact ⟨Spf.includeOutcome_ne r hh.1, hh.2⟩

/-- Helper: under an error-free oracle, the left-to-right mechanism sweep
neither yields `TempError` nor exceeds the lookup budget. -/
theorem Spf.evalMechs_ok (c : Spf.SpfCtx) (fuel : Nat)
    (hok : Spf.OracleOk c.oracle) (hhost : Spf.HostP c fuel)
    (hmech : Spf.MechP c fuel) : Spf.MechsP c fuel := by
  intro visited domain redirect ms
  induction ms with
  | nil =>
    intro cnt hcnt
    cases redirect with
    | none =>
      have heq : Spf.evalMechs c fuel visited domain Option.none [] cnt =
          (.neutral, cnt) := by simp [Spf.evalMechs]
      rw [heq]
      exact ⟨by simp, hcnt⟩
    | some target =>
      by_cases hvis : Spf.expandPlaceholders c domain target ∈ visited
      · have heq : Spf.evalMechs c fuel visited domain (some target) []
            cnt = (.permError, cnt) := by simp [Spf.evalMechs, hvis]
        rw [heq]
        exact ⟨by simp, hcnt⟩
      · cases htake : Spf.takeLookup c cnt with
        | none =>
          have heq : Spf.evalMechs c fuel visited domain (some target) []
              cnt = (.permError, cnt) := by simp [Spf.evalMechs, hvis, htake]
          rw [heq]
          exact ⟨by simp, hcnt⟩
        | some cnt' =>
          have hle := Spf.takeLookup_le c cnt cnt' htake
          have hh := hhost visited cnt'
            (Spf.expandPlaceholders c domain target) hle
          cases hch : Spf.checkHost c fuel visited cnt'
              (Spf.expandPlaceholders c domain target) with
          | mk r n =>
            rw [hch] at hh
            have heq : Spf.evalMechs c fuel visited domain (some target) []
                cnt = (Spf.redirectResult r, n) := by
              simp [Spf.evalMechs, hvis, htake, hch]
            rw [heq]
            exact ⟨Spf.redirectResult_ne r hh.1, hh.2⟩
  | cons m rest ih =>
    intro cnt hcnt
    have hm := hmech visited domain cnt m hcnt
    cases hev : Spf.evalMech c fuel visited domain cnt m with
    | mk out cnt' =>
      rw [hev] at hm
      cases out with
      | matched =>
        have heq : Spf.evalMechs c fuel visited domain redirect (m :: rest)
            cnt = (m.qual.toResult, cnt') := by simp [Spf.evalMechs, hev]
        rw [heq]
        exact ⟨Spf.toResult_ne_tempError m.qual, hm.2⟩
      | noMatch =>
        have heq : Spf.evalMechs c fuel visited domain redirect (m :: rest)
            cnt = Spf.evalMechs c fuel visited domain redirect rest cnt' := by
          simp [Spf.evalMechs, hev]
        rw [heq]
        exact ih cnt' hm.2
      | stop r =>
        have heq : Spf.evalMechs c fuel visited domain redirect (m :: rest)
            cnt = (r, cnt') := by simp [Spf.evalMechs, hev]
        rw [heq]
        refine ⟨?_, hm.2⟩
        cases r <;> simp_all

/-- Helper: under an error-free oracle, `checkHost` never yields
`TempError` and keeps the shared lookup counter within the configured
maximum, for every recursion depth. -/
theorem Spf.checkHost_ok (c : Spf.SpfCtx) (hok : Spf.OracleOk c.oracle) :
    ∀ fuel, Spf.HostP c fuel := by
  intro fuel
  induction fuel with
  | zero =>
    intro visited cnt domain hcnt
    have heq : Spf.checkHost c 0 visited cnt domain = (.permError, cnt) := by
      simp [Spf.checkHost]
    rw [heq]
    exact ⟨by simp, hcnt⟩
  | succ f ih =>
    intro visited cnt domain hcnt
    have hm := Spf.evalMechs_ok c f hok ih (Spf.evalMech_ok c f hok ih)
    cases htxt : c.oracle.txt domain with
    | error e =>
      cases e with
      | NotFound n =>
        have heq : Spf.checkHost c (f + 1) visited cnt domain =
            (.none, cnt) := by simp [Spf.checkHost, htxt]
        rw [heq]
        exact ⟨by simp, hcnt⟩
      | LookupFailed d => exact absurd htxt (hok.txt domain d)
    | ok txts =>
      cases hfil : txts.filter Spf.isSpfRecordText with
      | nil =>
        have heq : Spf.checkHost c (f + 1) visited cnt domain =
            (.none, cnt) := by simp [Spf.checkHost, htxt, hfil]
        rw [heq]
        exact ⟨by simp, hcnt⟩
      | cons s rest =>
        cases rest with
        | nil =>
          cases hp : Spf.parseRecord s with
          | none =>
            have heq : Spf.checkHost c (f + 1) visited cnt domain =
                (.permError, cnt) := by simp [Spf.checkHost, htxt, hfil, hp]
            rw [heq]
            exact ⟨by simp, hcnt⟩
          | some r =>
            have heq : Spf.checkHost c (f + 1) visited cnt domain =
                Spf.evalMechs c f (domain :: visited) domain r.redirect
                  r.mechanisms cnt := by
              simp [Spf.checkHost, htxt, hfil, hp]
            rw [heq]
            exact hm (domain :: visited) domain r.redirect r.mechanisms
              cnt hcnt
        | cons s2 rest2 =>
          have heq : Spf.checkHost c (f + 1) visited cnt domain =
              (.permError, cnt) := by simp [Spf.checkHost, htxt, hfil]
          rw [heq]
          exact ⟨by simp, hcnt⟩

/-- Helper: a verdict other than `TempError` is one of the six defined
results. -/
theorem Spf.ne_tempError_mem_six (r : Spf.SpfResult)
    (h : r ≠ .tempError) : r ∈ Spf.sixResults := by
  cases r <;> simp_all [Spf.sixResults]
/-- C4: for every DNS oracle that reports no network errors (and hence for
every syntactically valid or invalid record it serves), SPF evaluation
terminates — it is a total function driven by the explicit depth budget and
the shared lookup counter — with the counter never exceeding the configured
maximum, and yields exactly one of the six defined results (`TempError`,
the seventh, cannot arise without a network error). -/
theorem c4_evaluation_bounded_and_classified (c : Spf.SpfCtx)
    (senderDomain : String) (hok : Spf.OracleOk c.oracle) :
    (Spf.evaluate c senderDomain).1 ∈ Spf.sixResults ∧
    (Spf.evaluate c senderDomain).2 ≤ c.maxLookups := by
  have h := Spf.checkHost_ok c hok Spf.defaultDepth [] 0 senderDomain
    (Nat.zero_le _)
  exact ⟨Spf.ne_tempError_mem_six _ h.1, h.2⟩

/-- C4 witness: the all-absent oracle reports no network errors, and the
evaluation of a concrete domain over it stays within budget and yields one
of the six results. -/
theorem c4_witness :
    Spf.OracleOk Spf.nxCtx.oracle ∧
    ((Spf.evaluate Spf.nxCtx "example.com").1 ∈ Spf.sixResults ∧
      (Spf.evaluate Spf.nxCtx "example.com").2 ≤ Spf.nxCtx.maxLookups) := by
  have hok : Spf.OracleOk Spf.nxCtx.oracle := by
    constructor <;> intro n d h <;>
      simp [Spf.nxCtx, Spf.nxOracle] at h
  exact ⟨hok,
    c4_evaluation_bounded_and_classified Spf.nxCtx "example.com" hok⟩
